import Mathlib

/-!
# Verification of the RAG indexing-pipeline specification

A shallow embedding of `src/Indexing-tutorial.ipynb` (a linear notebook:
project-root discovery, secrets loading, PDF loading, recursive text
splitting, embedding, and a MongoDB Atlas vector-store connection) together
with the spec's models of the external stages, and proofs of the frozen
claims about it.
-/

/-! ## Data model (spec §3; notebook: `langchain_core.documents.Document`)

A `Document` is a unit of text plus source metadata; a `Chunk` is a document
fragment additionally carrying `start_index`, the character offset of the
chunk within its parent page's content (notebook cell: `add_start_index=True`).
Text is represented as `List Char`. -/

structure Document where
  page_content : List Char
  source : String
deriving DecidableEq, Repr

structure Chunk where
  page_content : List Char
  source : String
  start_index : Nat
deriving DecidableEq, Repr

/-! ## Chunk splitter

The notebook calls the external
`RecursiveCharacterTextSplitter(chunk_size=1000, chunk_overlap=200,
add_start_index=True)` whose implementation is not part of this repository.
Modelled from the spec (§4.2): construction validates the configuration
(`InvalidConfig` if `chunk_overlap ≥ chunk_size`); splitting repeatedly cuts
a window of up to `chunk_size` characters, advances the window start by
`chunk_size - chunk_overlap`, and stops when the window reaches the end of
the document.  The separator-priority heuristic is left unspecified by the
spec (§9 open question), so the window is cut at character granularity. -/

inductive ConfigError where
  | invalidConfig
deriving DecidableEq, Repr

structure SplitterConfig where
  chunk_size : Nat
  chunk_overlap : Nat
deriving DecidableEq, Repr

/-- Modelled from the spec: splitter construction, which fails with
`InvalidConfig` if `chunk_overlap ≥ chunk_size` (spec §4.2 Failure clause). -/
def mkSplitter (size overlap : Nat) : Except ConfigError SplitterConfig :=
  if size ≤ overlap then .error .invalidConfig else .ok ⟨size, overlap⟩

/-- Modelled from the spec: one pass of the splitting loop.  `fuel` bounds the
recursion so the function is total for every argument; `t.length` fuel is
enough whenever `1 ≤ step` (see `splitGo_covers`), and under the
configuration contract `chunk_overlap < chunk_size` the step is positive. -/
def splitGo (size step : Nat) (t : List Char) : Nat → Nat → List (Nat × List Char)
  | 0, start => [(start, (t.drop start).take size)]
  | fuel + 1, start =>
    if start + size < t.length then
      (start, (t.drop start).take size) :: splitGo size step t fuel (start + step)
    else
      [(start, (t.drop start).take size)]

/-- Modelled from the spec: split one text into `(start_index, window)` pairs,
advancing by `chunk_size - chunk_overlap` characters per step. -/
def splitText (size overlap : Nat) (t : List Char) : List (Nat × List Char) :=
  splitGo size (size - overlap) t t.length 0

/-- Chunks produced from one parent document, each tagged with the parent's
metadata and its own `start_index` (spec §2 stage 2). -/
def splitDoc (size overlap : Nat) (d : Document) : List Chunk :=
  (splitText size overlap d.page_content).map fun sc =>
    ⟨sc.2, d.source, sc.1⟩

/-- `text_splitter.split_documents docs`: chunks of every input document, in
document order. -/
def split_documents (size overlap : Nat) : List Document → List Chunk
  | [] => []
  | d :: ds => splitDoc size overlap d ++ split_documents size overlap ds

/-! ### Splitter lemmas -/

/-- Every list produced by `splitGo` begins with the window cut at `start`. -/
theorem splitGo_head (size step : Nat) (t : List Char) (fuel start : Nat) :
    ∃ l, splitGo size step t fuel start =
      (start, (t.drop start).take size) :: l := by
  cases fuel with
  | zero => exact ⟨[], rfl⟩
  | succ fuel =>
    by_cases h : start + size < t.length
    · exact ⟨splitGo size step t fuel (start + step), by simp [splitGo, h]⟩
    · exact ⟨[], by simp [splitGo, h]⟩

/-- Consecutive windows overlap by at most `size - step` characters: the end
of each window is at most the next window's start plus `size - step`. -/
theorem splitGo_chain (size step : Nat) (t : List Char) (hstep : step ≤ size)
    (fuel : Nat) : ∀ start : Nat,
    List.Chain' (fun a b : Nat × List Char =>
      a.1 + a.2.length ≤ b.1 + (size - step)) (splitGo size step t fuel start) := by
  induction fuel with
  | zero => intro start; simp [splitGo]
  | succ fuel ih =>
    intro start
    by_cases h : start + size < t.length
    · rw [splitGo, if_pos h]
      obtain ⟨l, hl⟩ := splitGo_head size step t fuel (start + step)
      rw [hl]
      rw [List.chain'_cons]
      refine ⟨?_, hl ▸ ih (start + step)⟩
      have hlen : ((t.drop start).take size).length ≤ size := by
        simp [List.length_take]
      calc start + ((t.drop start).take size).length
          ≤ start + size := Nat.add_le_add_left hlen start
        _ = start + (step + (size - step)) := by rw [Nat.add_sub_cancel' hstep]
        _ = start + step + (size - step) := by rw [Nat.add_assoc]
    · rw [splitGo, if_neg h]; simp

/-- Reading the window cut at `s` at relative position `k` gives the parent
text's character at absolute position `s + k`. -/
theorem window_getD (size : Nat) (t : List Char) (s k : Nat)
    (hk : k < size) :
    ((t.drop s).take size).getD k ' ' = t.getD (s + k) ' ' := by
  rw [List.getD_eq_getElem?_getD, List.getD_eq_getElem?_getD,
      List.getElem?_take_of_lt hk, List.getElem?_drop]

/-- With enough fuel and a positive step, every position of the parent text
from `start` on is inside some produced window, and the window agrees with
the parent text there. -/
theorem splitGo_covers (size step : Nat) (t : List Char)
    (hstep1 : 1 ≤ step) (hstep2 : step ≤ size) (fuel : Nat) :
    ∀ start : Nat, t.length ≤ start + fuel →
    ∀ p : Nat, start ≤ p → p < t.length →
    ∃ c ∈ splitGo size step t fuel start,
      c.1 ≤ p ∧ p - c.1 < c.2.length ∧
      c.2.getD (p - c.1) ' ' = t.getD p ' ' := by
  induction fuel with
  | zero =>
    intro start hf p hsp hp
    exact absurd hp (by omega)
  | succ fuel ih =>
    intro start hf p hsp hp
    have hwl : ((t.drop start).take size).length = min size (t.length - start) := by
      simp [List.length_take, List.length_drop]
    by_cases h : start + size < t.length
    · rw [splitGo, if_pos h]
      by_cases hps : p < start + size
      · refine ⟨(start, (t.drop start).take size), List.mem_cons_self _ _,
          hsp, ?_, ?_⟩
        · show p - start < ((t.drop start).take size).length
          rw [hwl]; omega
        · show ((t.drop start).take size).getD (p - start) ' ' = t.getD p ' '
          have := window_getD size t start (p - start) (by omega)
          rwa [Nat.add_sub_cancel' hsp] at this
      · obtain ⟨c, hc, h1, h2, h3⟩ :=
          ih (start + step) (by omega) p (by omega) hp
        exact ⟨c, List.mem_cons_of_mem _ hc, h1, h2, h3⟩
    · rw [splitGo, if_neg h]
      refine ⟨(start, (t.drop start).take size), List.mem_singleton_self _,
        hsp, ?_, ?_⟩
      · show p - start < ((t.drop start).take size).length
        rw [hwl]; omega
      · show ((t.drop start).take size).getD (p - start) ' ' = t.getD p ' '
        have := window_getD size t start (p - start) (by omega)
        rwa [Nat.add_sub_cancel' hsp] at this

/-- A text no longer than `chunk_size` is split into the single whole-text
window at offset 0. -/
theorem splitText_short (size overlap : Nat) (t : List Char)
    (h : t.length ≤ size) :
    splitText size overlap t = [(0, t.take size)] := by
  unfold splitText
  cases ht : t.length with
  | zero => simp [splitGo]
  | succ n =>
    have hguard : ¬ (0 + size < t.length) := by omega
    rw [splitGo, if_neg hguard, List.drop_zero]

/-- C1: for every parent document and every configuration with
`chunk_overlap < chunk_size`, consecutive chunks for that parent overlap by
at most `chunk_overlap` characters, and every character position of the
parent's text is covered by some chunk, whose text agrees with the parent
there. -/
theorem splitDoc_overlap_le_and_covers (size overlap : Nat) (d : Document)
    (h : overlap < size) :
    List.Chain' (fun a b : Chunk =>
      a.start_index + a.page_content.length ≤ b.start_index + overlap)
      (splitDoc size overlap d) ∧
    ∀ p : Nat, p < d.page_content.length →
    ∃ c ∈ splitDoc size overlap d, c.start_index ≤ p ∧
      p - c.start_index < c.page_content.length ∧
      c.page_content.getD (p - c.start_index) ' ' =
        d.page_content.getD p ' ' := by
  have hstep1 : 1 ≤ size - overlap := by omega
  have hstep2 : size - overlap ≤ size := Nat.sub_le size overlap
  have hso : size - (size - overlap) = overlap :=
    Nat.sub_sub_self (Nat.le_of_lt h)
  constructor
  · unfold splitDoc
    rw [List.chain'_map]
    have := splitGo_chain size (size - overlap) d.page_content hstep2
      d.page_content.length 0
    rw [hso] at this
    exact this
  · intro p hp
    obtain ⟨c, hc, h1, h2, h3⟩ :=
      splitGo_covers size (size - overlap) d.page_content hstep1 hstep2
        d.page_content.length 0 (by omega) p (Nat.zero_le p) hp
    refine ⟨⟨c.2, d.source, c.1⟩, ?_, h1, h2, h3⟩
    unfold splitDoc
    exact List.mem_map_of_mem _ hc

/-- C1 witness: the property at the concrete configuration `(3, 1)` on the
five-character document `"abcde"`. -/
theorem splitDoc_overlap_le_and_covers_witness :
    (1 : Nat) < 3 ∧
    (List.Chain' (fun a b : Chunk =>
      a.start_index + a.page_content.length ≤ b.start_index + 1)
      (splitDoc 3 1 ⟨['a', 'b', 'c', 'd', 'e'], "pg"⟩) ∧
    ∀ p : Nat, p < (['a', 'b', 'c', 'd', 'e'] : List Char).length →
    ∃ c ∈ splitDoc 3 1 ⟨['a', 'b', 'c', 'd', 'e'], "pg"⟩, c.start_index ≤ p ∧
      p - c.start_index < c.page_content.length ∧
      c.page_content.getD (p - c.start_index) ' ' =
        (['a', 'b', 'c', 'd', 'e'] : List Char).getD p ' ') :=
  ⟨by decide,
    splitDoc_overlap_le_and_covers 3 1 ⟨['a', 'b', 'c', 'd', 'e'], "pg"⟩
      (by decide)⟩

/-- C2: a document shorter than `chunk_size` yields exactly one chunk, whose
text is the whole content of the document (at start offset 0). -/
theorem splitDoc_short (size overlap : Nat) (d : Document)
    (h : d.page_content.length < size) :
    splitDoc size overlap d = [⟨d.page_content, d.source, 0⟩] := by
  unfold splitDoc
  rw [splitText_short size overlap d.page_content (Nat.le_of_lt h),
      List.take_of_length_le (Nat.le_of_lt h)]
  rfl

/-- C2 witness: the two-character document `"hi"` with `chunk_size = 3`. -/
theorem splitDoc_short_witness :
    (['h', 'i'] : List Char).length < 3 ∧
    splitDoc 3 1 ⟨['h', 'i'], "pg"⟩ = [⟨['h', 'i'], "pg", 0⟩] :=
  ⟨by decide, splitDoc_short 3 1 ⟨['h', 'i'], "pg"⟩ (by decide)⟩

/-- C3: constructing the splitter with `chunk_overlap ≥ chunk_size` fails
with `InvalidConfig`. -/
theorem mkSplitter_invalid (size overlap : Nat) (h : size ≤ overlap) :
    mkSplitter size overlap = .error .invalidConfig := by
  simp [mkSplitter, h]

/-- C3 witness: the spec's two example pairs `(1000, 1000)` and `(500, 600)`. -/
theorem mkSplitter_invalid_witness :
    mkSplitter 1000 1000 = .error .invalidConfig ∧
    mkSplitter 500 600 = .error .invalidConfig :=
  ⟨mkSplitter_invalid 1000 1000 (by decide),
   mkSplitter_invalid 500 600 (by decide)⟩

/-- The 2-page source document of the spec's scenario: page 1 has 50
characters, page 2 has 1500 characters. -/
def twoPageDoc : List Document :=
  [⟨List.replicate 50 'a', "page1"⟩, ⟨List.replicate 1500 'b', "page2"⟩]

set_option maxRecDepth 20000

/-- C4: with `chunk_size = 1000` and `chunk_overlap = 200`, the 2-page
document yields 1 chunk for page 1 and 2 chunks for page 2 with start
offsets 0 and 800, for a total of 3 chunks. -/
theorem split_documents_two_page :
    (split_documents 1000 200 twoPageDoc).map
        (fun c => (c.source, c.start_index, c.page_content.length)) =
      [("page1", 0, 50), ("page2", 0, 1000), ("page2", 800, 700)] ∧
    (split_documents 1000 200 twoPageDoc).length = 3 := by
  constructor <;> decide

/-! ## Embedder

The notebook calls the external `OllamaEmbeddings(model="llama3.2")` client
(`embeddings_model.embed_query`), whose implementation is not part of this
repository.  Modelled from the spec (§4.3): an embedder instance carries a
fixed dimensionality `d`; `embed_query` maps each chunk's text to a vector
of exactly `d` floating-point components, and fails with `EmptyInputError`
if the text is empty. -/

inductive EmbedError where
  | emptyInput
deriving DecidableEq, Repr

/-- Modelled from the spec: an embedder instance, with its fixed
dimensionality `dim` and the (opaque) component function of its model. -/
structure Embedder where
  dim : Nat
  model : List Char → Nat → Float

/-- Modelled from the spec: `embed_query` returns a vector of the instance's
fixed dimensionality, or `EmptyInputError` on empty input. -/
def embed_query (e : Embedder) (text : List Char) : Except EmbedError (List Float) :=
  if text = [] then .error .emptyInput
  else .ok ((List.range e.dim).map (e.model text))

/-- C5: any two non-empty texts embedded by the same embedder instance yield
vectors of equal length. -/
theorem embed_query_same_length (e : Embedder) (t1 t2 : List Char)
    (v1 v2 : List Float)
    (h1 : t1 ≠ []) (h2 : t2 ≠ [])
    (e1 : embed_query e t1 = .ok v1) (e2 : embed_query e t2 = .ok v2) :
    v1.length = v2.length := by
  rw [embed_query, if_neg h1] at e1
  rw [embed_query, if_neg h2] at e2
  cases e1
  cases e2
  simp

/-- A concrete embedder instance for the C5 witness. -/
def witnessEmbedder : Embedder :=
  ⟨3, fun _ _ => 1.0⟩

/-- The vector `witnessEmbedder` returns for the text `"a"`. -/
def witnessVec1 : List Float :=
  (List.range witnessEmbedder.dim).map (witnessEmbedder.model ['a'])

/-- The vector `witnessEmbedder` returns for the text `"bc"`. -/
def witnessVec2 : List Float :=
  (List.range witnessEmbedder.dim).map (witnessEmbedder.model ['b', 'c'])

/-- C5 witness: two concrete non-empty texts embedded by the same concrete
instance produce vectors of equal length. -/
theorem embed_query_same_length_witness :
    (['a'] : List Char) ≠ [] ∧ (['b', 'c'] : List Char) ≠ [] ∧
    embed_query witnessEmbedder ['a'] = .ok witnessVec1 ∧
    embed_query witnessEmbedder ['b', 'c'] = .ok witnessVec2 ∧
    witnessVec1.length = witnessVec2.length :=
  ⟨by decide, by decide, rfl, rfl,
    embed_query_same_length witnessEmbedder ['a'] ['b', 'c']
      witnessVec1 witnessVec2 (by decide) (by decide) rfl rfl⟩

/-! ## Project-root discovery (notebook cell "Set Project path")

The notebook's loop is

```python
for p in current_dir.parents:
    if ".git" in os.listdir(current_dir.parent) or ".project-root" in os.listdir(current_dir.parent):
        root_dir = current_dir.parent
        print(root_dir)
        break
else:
    raise Exception("No root directory was found that contains a .git directory")
```

The body never consults the iterated ancestor `p`: the condition reads the
directory listing of `current_dir.parent` on every iteration.  Directories
are modelled as strings, the filesystem as a listing function from a
directory to the names it contains, and `current_dir.parents` as the list of
ancestors of the working directory, nearest first (`pathlib`:
`current_dir.parent` is `parents[0]` when that list is non-empty, and
`current_dir` itself otherwise).  `none` models the `raise`. -/

/-- The loop's condition: the listing of `dir` contains `".git"` or
`".project-root"`. -/
def rootCond (listing : String → List String) (dir : String) : Bool :=
  (listing dir).contains ".git" || (listing dir).contains ".project-root"

/-- The `for p in current_dir.parents` loop: one iteration per ancestor, but
the condition and the assigned directory depend only on `parent`. -/
def rootLoop (listing : String → List String) (parent : String) :
    List String → Option String
  | [] => none
  | _ :: rest =>
    if rootCond listing parent then some parent
    else rootLoop listing parent rest

/-- The whole discovery cell: run the loop over `current_dir.parents` with
`parent := current_dir.parent`. -/
def findRootDir (currentDir : String) (parents : List String)
    (listing : String → List String) : Option String :=
  rootLoop listing (parents.headD currentDir) parents

/-- A loop whose condition is false returns `none` no matter how many
ancestors it iterates over. -/
theorem rootLoop_none (listing : String → List String) (parent : String)
    (hc : rootCond listing parent = false) :
    ∀ ps : List String, rootLoop listing parent ps = none := by
  intro ps
  induction ps with
  | nil => rfl
  | cons q rest ih => rw [rootLoop, hc]; simpa using ih

/-- C9: root discovery inspects only `current_dir.parent`'s listing: it
returns `current_dir.parent` (on the first iteration) exactly when there is
at least one ancestor and that parent's listing contains `".git"` or
`".project-root"`, and returns no other ancestor in any case; otherwise it
raises. -/
theorem findRootDir_first_parent_only (currentDir : String)
    (parents : List String) (listing : String → List String) :
    findRootDir currentDir parents listing =
      if parents ≠ [] ∧
          rootCond listing (parents.headD currentDir) = true
      then some (parents.headD currentDir)
      else none := by
  cases parents with
  | nil => simp [findRootDir, rootLoop]
  | cons q rest =>
    cases hc : rootCond listing ((q :: rest).headD currentDir) with
    | true =>
      rw [findRootDir, rootLoop, hc]
      simp
    | false =>
      rw [findRootDir, rootLoop, hc,
        rootLoop_none listing ((q :: rest).headD currentDir) hc rest]
      simp [hc]

/-! ## The pipeline run

The notebook is a linear script; its cells execute in order:

1. project-root discovery (`findRootDir`; a failed discovery raises),
2. `f = root_dir / ".secrets" / ".env"; assert f.exists()` — an
   `AssertionError` aborts the run before anything else happens,
3. `assert os.path.exists(file_path); loader = PyPDFLoader(file_path);
   docs = loader.load()` — the assertion aborts before the loader runs,
   and an unreadable file aborts during `loader.load()`,
4. `RecursiveCharacterTextSplitter(chunk_size=1000, chunk_overlap=200,
   add_start_index=True)` and `split_documents`,
5. two `embeddings_model.embed_query` calls,
6. `uri = os.getenv("MONGODB_URI"); client = MongoClient(uri, ...)` and a
   ping wrapped in `try: ... except Exception as e: print(e)` — the only
   `try/except` in the source: a ping failure is caught, its message
   printed, and execution continues,
7. vector-store construction, followed by the Index Writer upsert.
   The upsert stage itself is Modelled from the spec: the notebook stops
   after constructing `MongoDBAtlasVectorSearch`, and spec §4.4's upsert is
   the missing part.

Error names follow the spec's taxonomy (§7); the two `assert` failures are
named `secretsMissing` and `sourceNotFound`.  The outcomes of the external
effects (file existence, PDF parse, embedding service, ping, store write)
are abstracted as boolean fields of a `World`; the run records how many
times each external stage was invoked and which errors were caught
locally rather than propagated. -/

inductive PipelineError where
  | rootNotFound
  | secretsMissing
  | sourceNotFound
  | parseError
  | invalidConfig
  | embeddingServiceError
  | connectionError
deriving DecidableEq, Repr

/-- The run's environment: the filesystem around the working directory, the
process environment after `dotenv.load_dotenv`, and the outcomes of the
external-service calls. -/
structure World where
  currentDir : String
  parents : List String
  listing : String → List String
  env : String → Option String
  secretsExists : Bool
  sourceExists : Bool
  parseOk : Bool
  embedOk : Bool
  pingOk : Bool
  writeOk : Bool

instance : DecidableEq (Except PipelineError Unit) := fun a b =>
  match a, b with
  | .ok (), .ok () => isTrue rfl
  | .error e1, .error e2 =>
    match decEq e1 e2 with
    | isTrue h => isTrue (by rw [h])
    | isFalse h => isFalse (by intro hh; cases hh; exact h rfl)
  | .ok _, .error _ => isFalse (by intro h; cases h)
  | .error _, .ok _ => isFalse (by intro h; cases h)

/-- What one run did: its outcome, how many times each external stage was
called, which stage errors were caught locally (printed) instead of
propagated, and the connection string handed to `MongoClient`. -/
structure RunResult where
  outcome : Except PipelineError Unit
  loadCalls : Nat
  embedCalls : Nat
  connectCalls : Nat
  writeCalls : Nat
  caughtErrors : List PipelineError
  usedUri : Option String
deriving DecidableEq, Repr

/-- The environment key the notebook reads: `os.getenv("MONGODB_URI")`. -/
def connectionUriKey : String := "MONGODB_URI"

/-- One top-to-bottom execution of the notebook. -/
def runPipeline (w : World) : RunResult :=
  match findRootDir w.currentDir w.parents w.listing with
  | none => ⟨.error .rootNotFound, 0, 0, 0, 0, [], none⟩
  | some _ =>
    if !w.secretsExists then ⟨.error .secretsMissing, 0, 0, 0, 0, [], none⟩
    else if !w.sourceExists then ⟨.error .sourceNotFound, 0, 0, 0, 0, [], none⟩
    else if !w.parseOk then ⟨.error .parseError, 1, 0, 0, 0, [], none⟩
    else
      match mkSplitter 1000 200 with
      | .error _ => ⟨.error .invalidConfig, 1, 0, 0, 0, [], none⟩
      | .ok _ =>
        if !w.embedOk then
          ⟨.error .embeddingServiceError, 1, 1, 0, 0, [], none⟩
        else
          let uri := w.env connectionUriKey
          let caught : List PipelineError :=
            if w.pingOk then [] else [.connectionError]
          if !w.writeOk then
            ⟨.error .connectionError, 1, 2, 1, 0, caught, uri⟩
          else
            ⟨.ok (), 1, 2, 1, 1, caught, uri⟩

/-- A world in which every external call succeeds and the root and secrets
are in place. -/
def okWorld : World where
  currentDir := "/repo/src"
  parents := ["/repo", "/"]
  listing := fun d => if d = "/repo" then [".git", "src", "data"] else []
  env := fun k => if k = "MONGODB_URI" then some "mongodb+srv://cluster0" else none
  secretsExists := true
  sourceExists := true
  parseOk := true
  embedOk := true
  pingOk := true
  writeOk := true

/-- C6 counterexample: in a run where the vector-store ping fails and every
other call succeeds, the failure is caught locally (printed) and the run
completes instead of aborting — so not every pipeline-stage failure
surfaces to the invoking context. -/
theorem runPipeline_ping_failure_not_propagated :
    (runPipeline { okWorld with pingOk := false }).caughtErrors =
      [PipelineError.connectionError] ∧
    (runPipeline { okWorld with pingOk := false }).outcome = .ok () := by
  decide

/-- C6 amended: every pipeline-stage failure aborts the run and surfaces to
the invoking context, except a vector-store ping failure, which is caught
locally, printed, and does not affect the rest of the run: the run succeeds
exactly when root discovery, the secrets check, the source check, the
parse, the embedding calls and the store write succeed, regardless of the
ping; and the caught-error list holds exactly the ping failure when the
connection stage ran with a failing ping. -/
theorem runPipeline_failfast_except_ping (w : World) :
    ((runPipeline w).outcome = .ok () ↔
      ((findRootDir w.currentDir w.parents w.listing).isSome = true ∧
        w.secretsExists = true ∧ w.sourceExists = true ∧ w.parseOk = true ∧
        w.embedOk = true ∧ w.writeOk = true)) ∧
    (runPipeline w).caughtErrors =
      (if (runPipeline w).connectCalls = 1 ∧ w.pingOk = false
       then [PipelineError.connectionError] else []) := by
  obtain ⟨cd, ps, ls, env, se, so, po, eo, pk, wo⟩ := w
  cases h : findRootDir cd ps ls <;>
    cases se <;> cases so <;> cases po <;> cases eo <;> cases pk <;>
    cases wo <;> simp [runPipeline, mkSplitter, h]

/-- A world whose environment defines only the key `"CONNECTION_URI"`, with
every external call succeeding. -/
def connUriOnlyWorld : World :=
  { okWorld with
      env := fun k =>
        if k = "CONNECTION_URI" then some "mongodb+srv://cluster0" else none }

/-- C7 counterexample: with `CONNECTION_URI` set (and `MONGODB_URI` unset),
the run reaches the vector-store connection yet hands no connection string
to the client — the pipeline does not read the key `CONNECTION_URI`. -/
theorem runPipeline_ignores_connection_uri_key :
    (runPipeline connUriOnlyWorld).connectCalls = 1 ∧
    connUriOnlyWorld.env "CONNECTION_URI" = some "mongodb+srv://cluster0" ∧
    (runPipeline connUriOnlyWorld).usedUri = none := by
  decide

/-- C7 amended: the vector-store connection string is read from the
environment under the key `MONGODB_URI`; whenever the run reaches the
connection stage, the string handed to the client is the environment's
value at `MONGODB_URI`, and the run's behaviour depends on the environment
through no other key. -/
theorem runPipeline_uri_key (w : World) (e : String → Option String)
    (hcon : (runPipeline w).connectCalls = 1)
    (h : e "MONGODB_URI" = w.env "MONGODB_URI") :
    (runPipeline w).usedUri = w.env "MONGODB_URI" ∧
    runPipeline { w with env := e } = runPipeline w := by
  obtain ⟨cd, ps, ls, env, se, so, po, eo, pk, wo⟩ := w
  cases hr : findRootDir cd ps ls <;>
    cases se <;> cases so <;> cases po <;> cases eo <;> cases pk <;>
    cases wo <;>
    simp_all [runPipeline, mkSplitter, connectionUriKey]

/-- C7 amended witness: in the all-successful world, the client receives
exactly the environment's `MONGODB_URI` value, and replacing the
environment with one agreeing at `MONGODB_URI` leaves the run unchanged. -/
theorem runPipeline_uri_key_witness :
    (runPipeline okWorld).usedUri = okWorld.env "MONGODB_URI" ∧
    runPipeline { okWorld with env := okWorld.env } = runPipeline okWorld :=
  runPipeline_uri_key okWorld okWorld.env (by decide) rfl

/-- C8: when the source file path does not exist (and the run got past root
discovery and the secrets check), the run fails with `SourceNotFound` at
the loading stage, and no embedding call and no index-write call occurs. -/
theorem runPipeline_source_missing (w : World)
    (hroot : (findRootDir w.currentDir w.parents w.listing).isSome = true)
    (hsec : w.secretsExists = true) (hsrc : w.sourceExists = false) :
    (runPipeline w).outcome = .error .sourceNotFound ∧
    (runPipeline w).embedCalls = 0 ∧
    (runPipeline w).writeCalls = 0 := by
  obtain ⟨cd, ps, ls, env, se, so, po, eo, pk, wo⟩ := w
  cases hr : findRootDir cd ps ls <;> simp_all [runPipeline]

/-- C8 witness: the all-successful world with the source file removed. -/
theorem runPipeline_source_missing_witness :
    (runPipeline { okWorld with sourceExists := false }).outcome =
      .error .sourceNotFound ∧
    (runPipeline { okWorld with sourceExists := false }).embedCalls = 0 ∧
    (runPipeline { okWorld with sourceExists := false }).writeCalls = 0 :=
  runPipeline_source_missing { okWorld with sourceExists := false }
    (by decide) (by decide) (by decide)

/-- C10: when `<root_dir>/.secrets/.env` does not exist (and root discovery
succeeded), the run aborts with the assertion failure `secretsMissing`
before any document load, any embedding call, any vector-store connection,
and any index write. -/
theorem runPipeline_secrets_missing (w : World)
    (hroot : (findRootDir w.currentDir w.parents w.listing).isSome = true)
    (hsec : w.secretsExists = false) :
    (runPipeline w).outcome = .error .secretsMissing ∧
    (runPipeline w).loadCalls = 0 ∧
    (runPipeline w).embedCalls = 0 ∧
    (runPipeline w).connectCalls = 0 ∧
    (runPipeline w).writeCalls = 0 := by
  obtain ⟨cd, ps, ls, env, se, so, po, eo, pk, wo⟩ := w
  cases hr : findRootDir cd ps ls <;> simp_all [runPipeline]

/-- C10 witness: the all-successful world with the secrets file removed. -/
theorem runPipeline_secrets_missing_witness :
    (runPipeline { okWorld with secretsExists := false }).outcome =
      .error .secretsMissing ∧
    (runPipeline { okWorld with secretsExists := false }).loadCalls = 0 ∧
    (runPipeline { okWorld with secretsExists := false }).embedCalls = 0 ∧
    (runPipeline { okWorld with secretsExists := false }).connectCalls = 0 ∧
    (runPipeline { okWorld with secretsExists := false }).writeCalls = 0 :=
  runPipeline_secrets_missing { okWorld with secretsExists := false }
    (by decide) (by decide)
